import Mathlib

/-!
Shallow embedding of the task-tracking core of `TaskManagementSystem.py`:
the SQLite-backed store (tasks, tags, task_history), the `TaskManager`
operations (`add_task`, `get_tasks`, `update_task`, `complete_task`,
`delete_task`, `get_statistics`, `export_tasks`, `import_tasks`) and the
`PriorityPredictor` (`suggest_priority`, `_heuristic_priority`).

Modelling conventions:
- Timestamps are `Int` epoch seconds.  The Python code stores ISO-8601
  strings and compares them lexicographically (which agrees with
  chronological order for that format) or converts them with
  `datetime.fromisoformat` and subtracts; both are captured by integer
  comparison and subtraction.  `timedelta.days` is floor division of the
  second difference by 86400 (`Int.fdiv`).
- SQL `NULL` becomes `Option.none`.  In SQLite, `ORDER BY ... ASC` sorts
  `NULL` before every non-`NULL` value, and `NULL < x` is not true, so a
  `NULL` deadline is never counted as overdue.
- Python truthiness tests (`if deadline_days`, `if status`, `if avg`) are
  modelled explicitly: `None`, `0` and the empty string are falsy.
- `REAL` columns become `ℚ`; Python's `round(x, 2)` is round-half-to-even
  at two decimal places (`round2`).
- The rows of a table are kept as a `List` in insertion order;
  `AUTOINCREMENT` is the `nextId` counter of the store.
-/

namespace TaskSystem

/-- A row of the `tasks` table. -/
structure Task where
  id : Nat
  title : String
  description : String
  category : String
  priority : Int
  status : String
  deadline : Option Int
  created_at : Int
  completed_at : Option Int
  estimated_hours : Option ℚ
  actual_hours : Option ℚ
deriving DecidableEq

/-- A row of the `tags` table (the autoincrement id of the row itself is
irrelevant to every operation and is omitted). -/
structure Tag where
  task_id : Nat
  tag : String
deriving DecidableEq

/-- A row of the `task_history` table. -/
structure HistoryRecord where
  task_id : Nat
  category : String
  estimated_hours : Option ℚ
  actual_hours : Option ℚ
  days_to_deadline : Option Int
  completion_time_hours : ℚ
deriving DecidableEq

/-- The whole database: the three tables plus the autoincrement counter. -/
structure Store where
  nextId : Nat
  tasks : List Task
  tags : List Tag
  history : List HistoryRecord
deriving DecidableEq

/-- A freshly initialised database (`init_db`): empty tables, first id 1. -/
def Store.empty : Store := ⟨1, [], [], []⟩

/-- Embedding of `TaskManager.add_task`: inserts the task row (no validation of any
field), then one tag row per given tag, each stripped of surrounding
whitespace; returns the new id.  `now` is `CURRENT_TIMESTAMP`. -/
def add_task (s : Store) (title description category : String) (priority : Int)
    (deadline : Option Int) (estimated_hours : Option ℚ) (tags : List String)
    (now : Int) : Nat × Store :=
  let task : Task :=
    { id := s.nextId, title := title, description := description,
      category := category, priority := priority, status := "pending",
      deadline := deadline, created_at := now, completed_at := none,
      estimated_hours := estimated_hours, actual_hours := none }
  let newTags : List Tag := tags.map (fun t => ⟨s.nextId, t.trim⟩)
  (s.nextId,
    { s with nextId := s.nextId + 1, tasks := s.tasks ++ [task],
             tags := s.tags ++ newTags })

/-- The `WHERE` clauses of `get_tasks`: each filter is applied only when
the Python argument is truthy (not `None` and not the empty string). -/
def matchesFilter (status category : Option String) (t : Task) : Bool :=
  (match status with
    | none => true
    | some st => if st == "" then true else t.status == st) &&
  (match category with
    | none => true
    | some c => if c == "" then true else t.category == c)

/-- SQLite `ORDER BY deadline ASC`: `NULL` sorts before every value. -/
def deadlineLe : Option Int → Option Int → Bool
  | none, _ => true
  | some _, none => false
  | some a, some b => decide (a ≤ b)

/-- SQLite `ORDER BY priority ASC, deadline ASC` as a total preorder on
task rows. -/
def taskLe (a b : Task) : Bool :=
  decide (a.priority < b.priority) ||
    (a.priority == b.priority && deadlineLe a.deadline b.deadline)

/-- Propositional form of `taskLe`, for use with `List.insertionSort`. -/
def taskOrder (a b : Task) : Prop := taskLe a b = true

instance (a b : Task) : Decidable (taskOrder a b) :=
  inferInstanceAs (Decidable (_ = _))

/-- The tags joined to one task by `get_tasks`
(`SELECT tag FROM tags WHERE task_id = ?`). -/
def taskTags (s : Store) (task_id : Nat) : List String :=
  (s.tags.filter (fun tg => tg.task_id == task_id)).map (fun tg => tg.tag)

/-- A task dictionary as returned by `get_tasks`: every column of the
task row plus the joined `tags` list. -/
structure TaskWithTags where
  id : Nat
  title : String
  description : String
  category : String
  priority : Int
  status : String
  deadline : Option Int
  created_at : Int
  completed_at : Option Int
  estimated_hours : Option ℚ
  actual_hours : Option ℚ
  tags : List String
deriving DecidableEq

/-- The dictionary built for one row by `get_tasks`. -/
def toTaskWithTags (s : Store) (t : Task) : TaskWithTags :=
  { id := t.id, title := t.title, description := t.description,
    category := t.category, priority := t.priority, status := t.status,
    deadline := t.deadline, created_at := t.created_at,
    completed_at := t.completed_at, estimated_hours := t.estimated_hours,
    actual_hours := t.actual_hours, tags := taskTags s t.id }

/-- Embedding of `TaskManager.get_tasks`: filter by the truthy filters, order by
priority then deadline (SQLite `NULL`-first), join each row with its
tags. -/
def get_tasks (s : Store) (status category : Option String) :
    List TaskWithTags :=
  (((s.tasks.filter (matchesFilter status category)).insertionSort
      taskOrder).map (toTaskWithTags s))

/-- The keyword arguments of `update_task` restricted to the whitelist
`allowed_fields`; a `none` field was not passed (unknown keys are ignored
by the source and never reach the update).  For the nullable columns the
passed value is itself optional, as in SQL. -/
structure TaskUpdate where
  title : Option String := none
  description : Option String := none
  category : Option String := none
  priority : Option Int := none
  status : Option String := none
  deadline : Option (Option Int) := none
  estimated_hours : Option (Option ℚ) := none
  actual_hours : Option (Option ℚ) := none
deriving DecidableEq

/-- Whether at least one whitelisted field was passed (`if updates:`). -/
def TaskUpdate.hasUpdates (u : TaskUpdate) : Bool :=
  u.title.isSome || u.description.isSome || u.category.isSome ||
  u.priority.isSome || u.status.isSome || u.deadline.isSome ||
  u.estimated_hours.isSome || u.actual_hours.isSome

/-- The `SET` clause of `update_task` applied to one row. -/
def applyUpdate (u : TaskUpdate) (t : Task) : Task :=
  { t with
    title := u.title.getD t.title,
    description := u.description.getD t.description,
    category := u.category.getD t.category,
    priority := u.priority.getD t.priority,
    status := u.status.getD t.status,
    deadline := u.deadline.getD t.deadline,
    estimated_hours := u.estimated_hours.getD t.estimated_hours,
    actual_hours := u.actual_hours.getD t.actual_hours }

/-- Embedding of `TaskManager.update_task`: `UPDATE tasks SET ... WHERE id = ?` when at
least one whitelisted field is present, otherwise nothing happens.  A
missing id simply updates no row; no error is raised. -/
def update_task (s : Store) (task_id : Nat) (u : TaskUpdate) : Store :=
  if u.hasUpdates then
    { s with tasks := (s.tasks.map
        (fun t => if t.id == task_id then applyUpdate u t else t)) }
  else s

/-- Embedding of `TaskManager.complete_task`: fetch the row; if absent, do nothing (no
error).  Otherwise set status, completed_at and actual_hours, and append
one history record with `completion_time_hours = (now - created)/3600`
and `days_to_deadline = (deadline - created).days` (floor division by
86400), absent when there is no deadline. -/
def complete_task (s : Store) (task_id : Nat) (actual_hours : Option ℚ)
    (now : Int) : Store :=
  match s.tasks.find? (fun t => t.id == task_id) with
  | none => s
  | some task =>
    let completion_time : ℚ := ((now - task.created_at : Int) : ℚ) / 3600
    let days_to_deadline : Option Int :=
      task.deadline.map (fun d => (d - task.created_at).fdiv 86400)
    let record : HistoryRecord :=
      { task_id := task_id, category := task.category,
        estimated_hours := task.estimated_hours,
        actual_hours := actual_hours,
        days_to_deadline := days_to_deadline,
        completion_time_hours := completion_time }
    { s with
      tasks := (s.tasks.map (fun t =>
        if t.id == task_id then
          { t with status := "completed", completed_at := some now,
                   actual_hours := actual_hours }
        else t)),
      history := s.history ++ [record] }

/-- Embedding of `TaskManager.delete_task`: delete the tag rows of the id, then the
task row; history is untouched; a missing id deletes nothing. -/
def delete_task (s : Store) (task_id : Nat) : Store :=
  { s with
    tags := s.tags.filter (fun tg => !(tg.task_id == task_id)),
    tasks := s.tasks.filter (fun t => !(t.id == task_id)) }

/-- The dictionary returned by `get_statistics`.  The two `GROUP BY`
results are modelled as their lookup functions (a key absent from the
grouped result has count 0). -/
structure Stats where
  by_status : String → Nat
  by_category : String → Nat
  avg_completion_hours : ℚ
  overdue : Nat

/-- Python `round` at precision 0: round half to even. -/
def pyRound (q : ℚ) : Int :=
  let f : Int := ⌊q⌋
  let frac : ℚ := q - (f : ℚ)
  if frac < 1 / 2 then f
  else if 1 / 2 < frac then f + 1
  else if f % 2 = 0 then f else f + 1

/-- Python `round(q, 2)`. -/
def round2 (q : ℚ) : ℚ := ((pyRound (q * 100) : Int) : ℚ) / 100

/-- Embedding of `TaskManager.get_statistics`: status and category counts, the average
of `completion_time_hours` rounded to two decimals (`0` when the average
is `NULL` or falsy), and the count of rows with `deadline < now` and
status different from `completed` (`NULL < now` is not true in SQL). -/
def get_statistics (s : Store) (now : Int) : Stats :=
  let avgOpt : Option ℚ :=
    if s.history.isEmpty then none
    else some (((s.history.map
      (fun h => h.completion_time_hours)).sum) / (s.history.length : ℚ))
  { by_status := fun st =>
      (s.tasks.filter (fun t => t.status == st)).length,
    by_category := fun c =>
      (s.tasks.filter (fun t => t.category == c)).length,
    avg_completion_hours :=
      match avgOpt with
      | none => 0
      | some a => if a = 0 then 0 else round2 a,
    overdue :=
      (s.tasks.filter (fun t =>
        (match t.deadline with
          | none => false
          | some d => decide (d < now)) &&
        !(t.status == "completed"))).length }

/-- The guard `deadline_days and deadline_days <= bound` of the source:
`None` and `0` are falsy. -/
def ddLe (deadline_days : Option Int) (bound : Int) : Bool :=
  match deadline_days with
  | none => false
  | some d => !(d == 0) && decide (d ≤ bound)

/-- Embedding of `PriorityPredictor._heuristic_priority` (used when the category has
no history). -/
def heuristic_priority (estimated_hours : ℚ)
    (deadline_days : Option Int) : Int :=
  if ddLe deadline_days 3 then 1
  else if ddLe deadline_days 7 then 2
  else if 15 < estimated_hours then 2
  else if 5 < estimated_hours then 3
  else 4

/-- Embedding of `PriorityPredictor.suggest_priority`.  The two aggregate scores of the
source are computed (over the truthy rows, normalised by the history
length) but do not feed the returned priority, exactly as in the source;
the result is clamped with `max 1 (min 5 _)`. -/
def suggest_priority (s : Store) (category : String) (estimated_hours : ℚ)
    (deadline_days : Option Int) : Int :=
  let history := s.history.filter (fun h => h.category == category)
  if history.isEmpty then
    heuristic_priority estimated_hours deadline_days
  else
    let complexity_score : ℚ :=
      (history.foldl (fun acc h =>
        match h.estimated_hours with
        | some e =>
          if !(e == 0) && !(estimated_hours == 0) then
            acc + |e - estimated_hours| else acc
        | none => acc) 0) / (history.length : ℚ)
    let urgency_score : ℚ :=
      (history.foldl (fun acc h =>
        match h.days_to_deadline, deadline_days with
        | some hd, some dd =>
          if !(hd == 0) && !(dd == 0) then
            acc + ((|hd - dd| : Int) : ℚ) else acc
        | _, _ => acc) 0) / (history.length : ℚ)
    let priority : Int :=
      if ddLe deadline_days 7 then 1
      else if ddLe deadline_days 14 then 2
      else if 20 < estimated_hours then 2
      else if 10 < estimated_hours then 3
      else 4
    let _ := complexity_score
    let _ := urgency_score
    max 1 (min 5 priority)

/-- Embedding of `TaskManager.export_tasks` with the JSON format: the exported array is
exactly the output of `get_tasks` with no filters. -/
def export_tasks (s : Store) : List TaskWithTags :=
  get_tasks s none none

/-- Embedding of `TaskManager.import_tasks`: for each imported object, drop `tags`,
`id`, `created_at` and `completed_at`, and call `add_task` with the
remaining fields (every key is present in an exported object, so the
`dict.get` defaults never fire). -/
def import_tasks (s : Store) (ts : List TaskWithTags) (now : Int) : Store :=
  ts.foldl (fun st t =>
    (add_task st t.title t.description t.category t.priority t.deadline
      t.estimated_hours t.tags now).2) s

/-! Concrete stores used in counterexamples and witnesses. -/

/-- A store with one pending task (id 1, no deadline, created at 0). -/
def storeA : Store := (add_task Store.empty "t" "" "g" 3 none (some 0) [] 0).2

/-- A store with two pending tasks of equal priority: id 1 has a deadline,
id 2 has none. -/
def storeB : Store :=
  (add_task (add_task Store.empty "a" "" "g" 3 (some 100) (some 0) [] 0).2
    "b" "" "g" 3 none (some 0) [] 0).2

/-! Helper lemmas about the operations. -/

/-- Membership in a `get_tasks` result, unfolded through the sort. -/
theorem mem_get_tasks {s : Store} {st cat : Option String}
    {tw : TaskWithTags} :
    tw ∈ get_tasks s st cat ↔
      ∃ t ∈ s.tasks, matchesFilter st cat t = true ∧
        tw = toTaskWithTags s t := by
  simp only [get_tasks, List.mem_map, List.mem_insertionSort,
    List.mem_filter]
  constructor
  · rintro ⟨t, ⟨ht, hf⟩, rfl⟩
    exact ⟨t, ht, hf, rfl⟩
  · rintro ⟨t, ht, hf, rfl⟩
    exact ⟨t, ⟨ht, hf⟩, rfl⟩

/-- Every row of the store after `complete_task` comes from a row of the
store before it, changed only when its id matches.  This also covers a
missing id: then `find?` fails and no row changes. -/
theorem complete_task_tasks_mem {s : Store} {tid : Nat} {ah : Option ℚ}
    {now : Int} {t' : Task}
    (h : t' ∈ (complete_task s tid ah now).tasks) :
    ∃ t ∈ s.tasks, t' =
      if t.id == tid then
        { t with status := "completed", completed_at := some now,
                 actual_hours := ah }
      else t := by
  unfold complete_task at h
  cases hf : s.tasks.find? (fun t => t.id == tid) with
  | none =>
    rw [hf] at h
    refine ⟨t', h, ?_⟩
    have := List.find?_eq_none.mp hf t' h
    simp only [Bool.not_eq_true] at this
    simp [this]
  | some task =>
    rw [hf] at h
    simp only [List.mem_map] at h
    obtain ⟨t, ht, rfl⟩ := h
    exact ⟨t, ht, rfl⟩

/-! ### C1 -/

/-- C1, counterexample: `add_task` with an empty title does not fail and
does not leave the store unchanged — it inserts a task row (with the
empty title) and returns id 1.  No `ValidationError` exists anywhere in
the source. -/
theorem C1_counterexample :
    (add_task Store.empty "" "" "general" 3 none (some 0) [] 0).2 ≠
      Store.empty ∧
    (add_task Store.empty "" "" "general" 3 none (some 0) [] 0).2.tasks =
      [{ id := 1, title := "", description := "", category := "general",
         priority := 3, status := "pending", deadline := none,
         created_at := 0, completed_at := none, estimated_hours := some 0,
         actual_hours := none }] ∧
    (add_task Store.empty "" "" "general" 3 none (some 0) [] 0).1 = 1 := by
  refine ⟨?_, rfl, rfl⟩
  decide

/-- C1, amended: `add_task` performs no validation at all.  Called with an
empty title it inserts the task row (title `""`) and the tag rows exactly
as for any other title, returns the fresh id, and leaves the history
unchanged; no error is raised and no write is withheld. -/
theorem C1_amended (s : Store) (desc cat : String) (p : Int)
    (dl : Option Int) (eh : Option ℚ) (tgs : List String) (now : Int) :
    (add_task s "" desc cat p dl eh tgs now).1 = s.nextId ∧
    (add_task s "" desc cat p dl eh tgs now).2.tasks =
      s.tasks ++ [{ id := s.nextId, title := "", description := desc,
                    category := cat, priority := p, status := "pending",
                    deadline := dl, created_at := now, completed_at := none,
                    estimated_hours := eh, actual_hours := none }] ∧
    (add_task s "" desc cat p dl eh tgs now).2.tags =
      s.tags ++ tgs.map (fun t => ⟨s.nextId, t.trim⟩) ∧
    (add_task s "" desc cat p dl eh tgs now).2.history = s.history :=
  ⟨rfl, rfl, rfl, rfl⟩

/-! ### C3 -/

/-- C3, counterexample: on the empty store (where id 1 does not exist),
`update_task` with a whitelisted field and `complete_task` both return
normally with the store unchanged; no `NotFoundError` is raised (no such
error exists in the source). -/
theorem C3_counterexample :
    update_task Store.empty 1 { title := some "x" } = Store.empty ∧
    complete_task Store.empty 1 none 0 = Store.empty := by
  constructor <;> decide

/-- C3, amended: for a task id not present in the store, `update_task`
(whatever fields are passed) and `complete_task` are silent no-ops: they
raise no error and return the store unchanged. -/
theorem C3_amended (s : Store) (tid : Nat) (u : TaskUpdate) (ah : Option ℚ)
    (now : Int) (h : ∀ t ∈ s.tasks, t.id ≠ tid) :
    update_task s tid u = s ∧ complete_task s tid ah now = s := by
  constructor
  · unfold update_task
    split
    · have hmap : (s.tasks.map
          (fun t => if t.id == tid then applyUpdate u t else t)) = s.tasks := by
        conv_rhs => rw [← List.map_id s.tasks]
        apply List.map_congr_left
        intro t ht
        simp [h t ht]
      rw [hmap]
    · rfl
  · unfold complete_task
    have hf : s.tasks.find? (fun t => t.id == tid) = none := by
      rw [List.find?_eq_none]
      intro t ht
      simpa using h t ht
    rw [hf]

/-- C3, witness. -/
theorem C3_witness :
    update_task Store.empty 1 { title := some "x" } = Store.empty ∧
    complete_task Store.empty 1 none 0 = Store.empty :=
  C3_amended Store.empty 1 { title := some "x" } none 0 (by decide)

/-! ### C2 -/

/-- The spec invariant: a task's `completed_at` is set exactly when its
status is `completed`. -/
def CompletionInv (s : Store) : Prop :=
  ∀ t ∈ s.tasks, (t.status = "completed" ↔ t.completed_at.isSome = true)

/-- C2, counterexample: `update_task` can set status `completed` while
leaving `completed_at` unset, breaking the claimed invariant, and a
second `complete_task` call on an already-completed task overwrites
`completed_at` (3600 becomes 7200) and `actual_hours` (1 becomes 2), so
the row is not stable after the first call. -/
theorem C2_counterexample :
    (∃ t ∈ (update_task storeA 1 { status := some "completed" }).tasks,
       t.status = "completed" ∧ t.completed_at = none) ∧
    (∀ t ∈ (complete_task storeA 1 (some 1) 3600).tasks,
       t.completed_at = some 3600 ∧ t.actual_hours = some 1) ∧
    (∀ t ∈ (complete_task (complete_task storeA 1 (some 1) 3600) 1
        (some 2) 7200).tasks,
       t.completed_at = some 7200 ∧ t.actual_hours = some 2) ∧
    some (3600 : Int) ≠ some 7200 := by
  refine ⟨?_, ?_, ?_, ?_⟩ <;> decide

/-- C2, amended: the invariant `completed_at` set iff status `completed`
is preserved by `add_task`, `complete_task` and `delete_task`, but not by
`update_task`, which can set the status without touching `completed_at`;
and `complete_task` is not stable on the task row: each call on an
existing id rewrites status to `completed`, `completed_at` to the current
time of that call and `actual_hours` to the value supplied to that call
(only the status is therefore stable after the first call). -/
theorem C2_amended :
    (∀ s title desc cat p dl eh tgs now, CompletionInv s →
        CompletionInv (add_task s title desc cat p dl eh tgs now).2) ∧
    (∀ s tid ah now, CompletionInv s →
        CompletionInv (complete_task s tid ah now)) ∧
    (∀ s tid, CompletionInv s → CompletionInv (delete_task s tid)) ∧
    (∀ s tid ah now, (∃ t ∈ s.tasks, t.id = tid) →
        ∃ t' ∈ (complete_task s tid ah now).tasks, t'.id = tid) ∧
    (∀ s tid ah now t', t' ∈ (complete_task s tid ah now).tasks →
        t'.id = tid →
        t'.status = "completed" ∧ t'.completed_at = some now ∧
          t'.actual_hours = ah) := by
  refine ⟨?_, ?_, ?_, ?_, ?_⟩
  · intro s title desc cat p dl eh tgs now hInv t ht
    simp only [add_task, List.mem_append, List.mem_singleton] at ht
    rcases ht with ht | rfl
    · exact hInv t ht
    · simp
  · intro s tid ah now hInv t' ht'
    obtain ⟨t, ht, rfl⟩ := complete_task_tasks_mem ht'
    by_cases hid : (t.id == tid) = true
    · simp [hid]
    · simp only [Bool.not_eq_true] at hid
      simp only [hid, if_false]
      exact hInv t ht
  · intro s tid hInv t ht
    simp only [delete_task, List.mem_filter] at ht
    exact hInv t ht.1
  · intro s tid ah now ⟨t, ht, htid⟩
    unfold complete_task
    cases hf : s.tasks.find? (fun x => x.id == tid) with
    | none =>
      exfalso
      have := List.find?_eq_none.mp hf t ht
      simp [htid] at this
    | some task =>
      refine ⟨if t.id == tid then
          { t with status := "completed", completed_at := some now,
                   actual_hours := ah }
        else t, ?_, ?_⟩
      · simp only [List.mem_map]
        exact ⟨t, ht, rfl⟩
      · simp [htid]
  · intro s tid ah now t' ht' htid
    obtain ⟨t, ht, rfl⟩ := complete_task_tasks_mem ht'
    by_cases hid : (t.id == tid) = true
    · simp [hid]
    · simp only [Bool.not_eq_true] at hid
      rw [hid] at htid
      simp at htid
      simp only [beq_eq_false_iff_ne, ne_eq] at hid
      exact absurd htid hid

/-- C2, witness. -/
theorem C2_witness :
    CompletionInv (add_task Store.empty "t" "" "g" 3 none (some 0) [] 0).2 ∧
    (∃ t' ∈ (complete_task storeA 1 (some 1) 3600).tasks, t'.id = 1) :=
  ⟨C2_amended.1 Store.empty "t" "" "g" 3 none (some 0) [] 0
      (by intro t ht; simp [Store.empty] at ht),
    C2_amended.2.2.2.1 storeA 1 (some 1) 3600 (by decide)⟩

/-! ### C4 -/

/-- The no-history decision table stated from the amended spec words,
with the deadline branches guarded by the deadline being present and
nonzero (the Python truthiness of `deadline_days`). -/
def specTableNoHistory (eh : ℚ) (dd : Option Int) : Int :=
  match dd with
  | none => if 15 < eh then 2 else if 5 < eh then 3 else 4
  | some d =>
    if d ≠ 0 ∧ d ≤ 3 then 1
    else if d ≠ 0 ∧ d ≤ 7 then 2
    else if 15 < eh then 2
    else if 5 < eh then 3
    else 4

/-- The with-history decision table stated from the amended spec words,
with the same nonzero guard on the deadline branches. -/
def specTableWithHistory (eh : ℚ) (dd : Option Int) : Int :=
  match dd with
  | none => if 20 < eh then 2 else if 10 < eh then 3 else 4
  | some d =>
    if d ≠ 0 ∧ d ≤ 7 then 1
    else if d ≠ 0 ∧ d ≤ 14 then 2
    else if 20 < eh then 2
    else if 10 < eh then 3
    else 4

theorem heuristic_eq_table (eh : ℚ) (dd : Option Int) :
    heuristic_priority eh dd = specTableNoHistory eh dd := by
  cases dd with
  | none => simp [heuristic_priority, specTableNoHistory, ddLe]
  | some d =>
    simp only [heuristic_priority, specTableNoHistory, ddLe,
      Bool.and_eq_true, Bool.not_eq_true', beq_eq_false_iff_ne, ne_eq,
      decide_eq_true_eq]

/-- When the category has no history rows, `suggest_priority` is the
fallback heuristic. -/
theorem suggest_priority_no_history (s : Store) (cat : String) (eh : ℚ)
    (dd : Option Int)
    (h : s.history.filter (fun hh => hh.category == cat) = []) :
    suggest_priority s cat eh dd = heuristic_priority eh dd := by
  unfold suggest_priority
  simp only [h, List.isEmpty_nil, if_true]

/-- When the category has history rows, `suggest_priority` is the clamped
primary rule, whatever the rows contain. -/
theorem suggest_priority_with_history (s : Store) (cat : String) (eh : ℚ)
    (dd : Option Int)
    (h : s.history.filter (fun hh => hh.category == cat) ≠ []) :
    suggest_priority s cat eh dd =
      max 1 (min 5 (if ddLe dd 7 then 1
        else if ddLe dd 14 then 2
        else if 20 < eh then 2
        else if 10 < eh then 3
        else 4)) := by
  unfold suggest_priority
  have hh : (s.history.filter (fun hh => hh.category == cat)).isEmpty =
      false := by
    simpa [List.isEmpty_iff] using h
  simp only [hh, Bool.false_eq_true, if_false]

/-- The clamped primary rule coincides with the with-history table. -/
theorem clamp_eq_table (eh : ℚ) (dd : Option Int) :
    max 1 (min 5 (if ddLe dd 7 then 1
      else if ddLe dd 14 then 2
      else if 20 < eh then 2
      else if 10 < eh then 3
      else 4)) = specTableWithHistory eh dd := by
  cases dd with
  | none =>
    simp only [specTableWithHistory, ddLe, Bool.false_eq_true, if_false]
    split_ifs <;> decide
  | some d =>
    simp only [specTableWithHistory, ddLe, Bool.and_eq_true,
      Bool.not_eq_true', beq_eq_false_iff_ne, ne_eq, decide_eq_true_eq]
    split_ifs <;> first | contradiction | decide

/-- C4, counterexample: with no history and `deadlineDays = 0` (which
satisfies `deadlineDays ≤ 3`), `suggest_priority` returns 4, not the
claimed 1: the Python guard `deadline_days and deadline_days <= 3`
treats 0 as falsy and falls through to the hours branches. -/
theorem C4_counterexample :
    suggest_priority Store.empty "general" 0 (some 0) = 4 ∧
    (0 : Int) ≤ 3 ∧ (4 : Int) ≠ 1 := by
  refine ⟨by decide, by decide, by decide⟩

/-- C4, amended: the decision tables hold with the deadline branches
additionally requiring the deadline to be present and nonzero (`None`
and `0` are both falsy in the source).  With no history rows for the
category the no-history table applies; with at least one row the
with-history table applies and the result is independent of the rows'
contents; the spec's three examples hold, and the result always lies in
`[1, 5]`. -/
theorem C4_amended :
    (∀ s cat eh dd, s.history.filter (fun h => h.category == cat) = [] →
        suggest_priority s cat eh dd = specTableNoHistory eh dd) ∧
    (∀ s cat eh dd, s.history.filter (fun h => h.category == cat) ≠ [] →
        suggest_priority s cat eh dd = specTableWithHistory eh dd) ∧
    (∀ s s' cat eh dd,
        s.history.filter (fun h => h.category == cat) ≠ [] →
        s'.history.filter (fun h => h.category == cat) ≠ [] →
        suggest_priority s cat eh dd = suggest_priority s' cat eh dd) ∧
    (∀ s cat eh dd, 1 ≤ suggest_priority s cat eh dd ∧
        suggest_priority s cat eh dd ≤ 5) ∧
    (∀ eh, suggest_priority Store.empty "general" eh (some 2) = 1) ∧
    suggest_priority Store.empty "general" 20 none = 2 ∧
    suggest_priority Store.empty "general" 3 none = 4 := by
  have hNo : ∀ s cat eh dd,
      s.history.filter (fun h => h.category == cat) = [] →
      suggest_priority s cat eh dd = specTableNoHistory eh dd := by
    intro s cat eh dd h
    rw [suggest_priority_no_history s cat eh dd h, heuristic_eq_table]
  have hYes : ∀ s cat eh dd,
      s.history.filter (fun h => h.category == cat) ≠ [] →
      suggest_priority s cat eh dd = specTableWithHistory eh dd := by
    intro s cat eh dd h
    rw [suggest_priority_with_history s cat eh dd h, clamp_eq_table]
  refine ⟨hNo, hYes, ?_, ?_, ?_, by decide, by decide⟩
  · intro s s' cat eh dd h h'
    rw [hYes s cat eh dd h, hYes s' cat eh dd h']
  · intro s cat eh dd
    by_cases h : s.history.filter (fun hh => hh.category == cat) = []
    · rw [hNo s cat eh dd h]
      cases dd with
      | none => simp only [specTableNoHistory]; split_ifs <;> omega
      | some d => simp only [specTableNoHistory]; split_ifs <;> omega
    · rw [hYes s cat eh dd h]
      cases dd with
      | none => simp only [specTableWithHistory]; split_ifs <;> omega
      | some d => simp only [specTableWithHistory]; split_ifs <;> omega
  · intro eh
    have h : Store.empty.history.filter
        (fun h => h.category == "general") = [] := rfl
    rw [hNo Store.empty "general" eh (some 2) h]
    simp [specTableNoHistory]

/-- C4, witness: a store with one history row for the category exercises
the with-history branch; the empty store exercises the fallback. -/
theorem C4_witness :
    suggest_priority Store.empty "g" 7 (some 9) =
      specTableNoHistory 7 (some 9) ∧
    suggest_priority
      (complete_task (add_task Store.empty "t" "" "g" 3 (some 86400)
        (some 1) [] 0).2 1 (some 1) 3600) "g" 7 (some 9) =
      specTableWithHistory 7 (some 9) :=
  ⟨C4_amended.1 Store.empty "g" 7 (some 9) rfl,
   C4_amended.2.1 (complete_task (add_task Store.empty "t" "" "g" 3
      (some 86400) (some 1) [] 0).2 1 (some 1) 3600) "g" 7 (some 9)
      (by decide)⟩

/-! ### C5 -/

theorem deadlineLe_trans {a b c : Option Int} (h1 : deadlineLe a b = true)
    (h2 : deadlineLe b c = true) : deadlineLe a c = true := by
  cases a with
  | none => rfl
  | some x =>
    cases b with
    | none => simp [deadlineLe] at h1
    | some y =>
      cases c with
      | none => simp [deadlineLe] at h2
      | some z =>
        simp only [deadlineLe, decide_eq_true_eq] at *
        omega

theorem deadlineLe_total (a b : Option Int) :
    deadlineLe a b = true ∨ deadlineLe b a = true := by
  cases a with
  | none => exact Or.inl rfl
  | some x =>
    cases b with
    | none => exact Or.inr rfl
    | some y =>
      simp only [deadlineLe, decide_eq_true_eq]
      omega

theorem taskLe_trans {a b c : Task} (h1 : taskLe a b = true)
    (h2 : taskLe b c = true) : taskLe a c = true := by
  simp only [taskLe, Bool.or_eq_true, decide_eq_true_eq, Bool.and_eq_true,
    beq_iff_eq] at *
  rcases h1 with h1 | ⟨h1e, h1d⟩
  · rcases h2 with h2 | ⟨h2e, h2d⟩
    · exact Or.inl (h1.trans h2)
    · exact Or.inl (h2e ▸ h1)
  · rcases h2 with h2 | ⟨h2e, h2d⟩
    · exact Or.inl (h1e ▸ h2)
    · exact Or.inr ⟨h1e.trans h2e, deadlineLe_trans h1d h2d⟩

theorem taskLe_total (a b : Task) :
    taskLe a b = true ∨ taskLe b a = true := by
  simp only [taskLe, Bool.or_eq_true, decide_eq_true_eq, Bool.and_eq_true,
    beq_iff_eq]
  rcases lt_trichotomy a.priority b.priority with h | h | h
  · exact Or.inl (Or.inl h)
  · rcases deadlineLe_total a.deadline b.deadline with hd | hd
    · exact Or.inl (Or.inr ⟨h, hd⟩)
    · exact Or.inr (Or.inr ⟨h.symm, hd⟩)
  · exact Or.inr (Or.inl h)

instance : IsTrans Task taskOrder :=
  ⟨fun _ _ _ h1 h2 => taskLe_trans h1 h2⟩

instance : IsTotal Task taskOrder :=
  ⟨fun a b => taskLe_total a b⟩

/-- C5, counterexample: two tasks of equal priority, id 1 with a deadline
and id 2 without; `get_tasks` places the deadline-less task 2 first, not
after the task with a deadline (SQLite sorts `NULL` before any value in
ascending order). -/
theorem C5_counterexample :
    (get_tasks storeB none none).map (fun tw => (tw.id, tw.priority,
      tw.deadline)) = [(2, 3, none), (1, 3, some 100)] := by
  decide

/-- C5, amended: for every store contents and filter, the sequence
returned by `get_tasks` is ordered by priority ascending, then by
deadline ascending with every task lacking a deadline placed before all
tasks that have a deadline within the same priority (SQLite `NULL`-first
ascending order), the opposite of the claimed `NULL`-last placement. -/
theorem C5_amended (s : Store) (status category : Option String) :
    (get_tasks s status category).Pairwise (fun a b =>
      a.priority < b.priority ∨
        (a.priority = b.priority ∧
          (a.deadline = none ∨
            ∃ da db, a.deadline = some da ∧ b.deadline = some db ∧
              da ≤ db))) := by
  unfold get_tasks
  refine List.Pairwise.map _ ?_ (List.sorted_insertionSort taskOrder _)
  intro a b hab
  simp only [toTaskWithTags]
  simp only [taskOrder, taskLe, Bool.or_eq_true, decide_eq_true_eq,
    Bool.and_eq_true, beq_iff_eq] at hab
  rcases hab with h | ⟨he, hd⟩
  · exact Or.inl h
  · refine Or.inr ⟨he, ?_⟩
    cases ha : a.deadline with
    | none => exact Or.inl rfl
    | some da =>
      cases hb : b.deadline with
      | none => rw [ha, hb] at hd; simp [deadlineLe] at hd
      | some db =>
        rw [ha, hb] at hd
        simp only [deadlineLe, decide_eq_true_eq] at hd
        exact Or.inr ⟨da, db, rfl, rfl, hd⟩

/-! ### C6 -/

/-- C6: `complete_task` on an existing task appends exactly one history
record; its `days_to_deadline` is the floor whole-day difference between
the task's `created_at` and its deadline (negative when the deadline
precedes creation, not clamped) and is absent when the task has no
deadline; its `completion_time_hours` is the fractional number of hours
between `created_at` and the completion time. -/
theorem C6_complete_history (s : Store) (tid : Nat) (ah : Option ℚ)
    (now : Int) (t : Task)
    (h : s.tasks.find? (fun x => x.id == tid) = some t) :
    (complete_task s tid ah now).history = s.history ++
      [{ task_id := tid, category := t.category,
         estimated_hours := t.estimated_hours, actual_hours := ah,
         days_to_deadline :=
           t.deadline.map (fun d => (d - t.created_at).fdiv 86400),
         completion_time_hours := ((now - t.created_at : Int) : ℚ) / 3600 }] ∧
    (complete_task s tid ah now).history.length = s.history.length + 1 := by
  unfold complete_task
  rw [h]
  exact ⟨rfl, by simp⟩

/-- The single task row of `c6Store`, with a deadline one hour before its
creation time. -/
def c6Task : Task :=
  { id := 1, title := "t", description := "", category := "g",
    priority := 3, status := "pending", deadline := some (-3600),
    created_at := 0, completed_at := none, estimated_hours := some 2,
    actual_hours := none }

/-- A store holding `c6Task` only. -/
def c6Store : Store :=
  (add_task Store.empty "t" "" "g" 3 (some (-3600)) (some 2) [] 0).2

/-- C6, witness: completing the task of `c6Store` at time 7200 appends
one record whose `days_to_deadline` is `-1` (floor of −3600/86400) and
whose `completion_time_hours` is 2. -/
theorem C6_witness :
    (complete_task c6Store 1 (some 1) 7200).history = c6Store.history ++
      [{ task_id := 1, category := c6Task.category,
         estimated_hours := c6Task.estimated_hours,
         actual_hours := some 1,
         days_to_deadline :=
           c6Task.deadline.map (fun d => (d - c6Task.created_at).fdiv 86400),
         completion_time_hours :=
           ((7200 - c6Task.created_at : Int) : ℚ) / 3600 }] ∧
    (complete_task c6Store 1 (some 1) 7200).history.length =
      c6Store.history.length + 1 :=
  C6_complete_history c6Store 1 (some 1) 7200 c6Task (by decide)

/-! ### C7 -/

/-- A store with one task completed 450 seconds (= 0.125 hours) after
creation. -/
def c7Store : Store := complete_task storeA 1 none 450

/-- C7, counterexample: the single history record of `c7Store` has
average `completion_time_hours` exactly 1/8 = 0.125, but
`get_statistics` reports 0.12 (= 3/25): the source rounds the average to
two decimal places, so the reported value does not equal the average. -/
theorem C7_counterexample :
    ((c7Store.history.map (fun h => h.completion_time_hours)).sum /
        (c7Store.history.length : ℚ)) = 1 / 8 ∧
    (get_statistics c7Store 0).avg_completion_hours = 3 / 25 ∧
    (3 / 25 : ℚ) ≠ 1 / 8 := by
  refine ⟨?_, ?_, by norm_num⟩
  · norm_num [c7Store, storeA, complete_task, add_task, Store.empty]
  · norm_num [c7Store, storeA, get_statistics, complete_task, add_task,
      Store.empty, round2, pyRound]

/-- C7, amended: `avg_completion_hours` equals the average of
`completion_time_hours` over all history records rounded half-to-even to
two decimal places (0 when no history exists); `overdue` counts the
tasks whose deadline is present and strictly before now and whose status
is not `completed`; on the empty store every status and category count
is zero, the average is 0 and the overdue count is 0. -/
theorem C7_amended (s : Store) (now : Int) :
    ((get_statistics s now).avg_completion_hours =
      if s.history = [] then 0
      else round2 (((s.history.map
        (fun h => h.completion_time_hours)).sum) /
          (s.history.length : ℚ))) ∧
    (get_statistics s now).overdue = s.tasks.countP (fun t =>
      (t.deadline.any (fun d => decide (d < now))) &&
        !(t.status == "completed")) ∧
    (∀ st, (get_statistics Store.empty now).by_status st = 0) ∧
    (∀ c, (get_statistics Store.empty now).by_category c = 0) ∧
    (get_statistics Store.empty now).avg_completion_hours = 0 ∧
    (get_statistics Store.empty now).overdue = 0 := by
  refine ⟨?_, ?_, fun st => rfl, fun c => rfl, rfl, rfl⟩
  · unfold get_statistics
    cases hh : s.history with
    | nil => simp
    | cons r rs =>
      simp only [List.isEmpty_cons, if_false, Bool.false_eq_true]
      set a : ℚ := ((r :: rs).map (fun h => h.completion_time_hours)).sum /
        ((r :: rs).length : ℚ) with ha
      by_cases h0 : a = 0
      · simp only [h0, if_true]
        rw [if_neg (by simp)]
        norm_num [round2, pyRound]
      · simp [h0]
  · unfold get_statistics
    rw [List.countP_eq_length_filter]
    simp only []
    congr 1
    apply List.filter_congr
    intro t _
    cases t.deadline <;> rfl

/-! ### C8 -/

/-- C8: `delete_task` removes the task row with the given id and every
tag row with that task_id, and changes nothing else: no surviving task or
tag has the id, every other task and tag row is kept verbatim, the tag
join of every other id is unchanged, a subsequent `get_tasks` (with any
filter) never returns the id, and the history table is exactly the one
before the deletion. -/
theorem C8_delete_frame (s : Store) (tid : Nat) :
    (∀ t ∈ (delete_task s tid).tasks, t.id ≠ tid) ∧
    (∀ tg ∈ (delete_task s tid).tags, tg.task_id ≠ tid) ∧
    (∀ t ∈ s.tasks, t.id ≠ tid → t ∈ (delete_task s tid).tasks) ∧
    (∀ t ∈ (delete_task s tid).tasks, t ∈ s.tasks) ∧
    (∀ tg ∈ s.tags, tg.task_id ≠ tid → tg ∈ (delete_task s tid).tags) ∧
    (∀ tg ∈ (delete_task s tid).tags, tg ∈ s.tags) ∧
    (delete_task s tid).history = s.history ∧
    (∀ i, i ≠ tid → taskTags (delete_task s tid) i = taskTags s i) ∧
    (∀ st cat, ∀ tw ∈ get_tasks (delete_task s tid) st cat,
      tw.id ≠ tid) := by
  refine ⟨?_, ?_, ?_, ?_, ?_, ?_, rfl, ?_, ?_⟩
  · intro t ht
    simp only [delete_task, List.mem_filter, Bool.not_eq_eq_eq_not,
      Bool.not_true, beq_eq_false_iff_ne, ne_eq] at ht
    exact ht.2
  · intro tg htg
    simp only [delete_task, List.mem_filter, Bool.not_eq_eq_eq_not,
      Bool.not_true, beq_eq_false_iff_ne, ne_eq] at htg
    exact htg.2
  · intro t ht hne
    simp only [delete_task, List.mem_filter]
    exact ⟨ht, by simpa using hne⟩
  · intro t ht
    exact List.mem_of_mem_filter ht
  · intro tg htg hne
    simp only [delete_task, List.mem_filter]
    exact ⟨htg, by simpa using hne⟩
  · intro tg htg
    exact List.mem_of_mem_filter htg
  · intro i hi
    unfold taskTags delete_task
    simp only [List.filter_filter]
    congr 1
    apply List.filter_congr
    intro tg _
    by_cases h : tg.task_id = i
    · subst h
      simp [hi]
    · simp [h]
  · intro st cat tw htw
    rcases mem_get_tasks.mp htw with ⟨t, ht, _, rfl⟩
    simp only [delete_task, List.mem_filter, Bool.not_eq_eq_eq_not,
      Bool.not_true, beq_eq_false_iff_ne, ne_eq] at ht
    simpa [toTaskWithTags] using ht.2

/-- A store with two tasks (ids 1 and 2), a tag for each, and one history
record for task 1. -/
def c8Store : Store :=
  complete_task
    ((add_task (add_task Store.empty "a" "" "g" 3 (some 100) (some 1)
      ["x"] 0).2 "b" "" "h" 2 none (some 2) ["y"] 0).2) 1 (some 1) 3600

/-- C8, witness: deleting task 1 of `c8Store` keeps the history and keeps
task 2. -/
theorem C8_witness :
    (delete_task c8Store 1).history = c8Store.history ∧
    ({ id := 2, title := "b", description := "", category := "h",
       priority := 2, status := "pending", deadline := none,
       created_at := 0, completed_at := none, estimated_hours := some 2,
       actual_hours := none } : Task) ∈ (delete_task c8Store 1).tasks :=
  ⟨(C8_delete_frame c8Store 1).2.2.2.2.2.2.1,
   (C8_delete_frame c8Store 1).2.2.1 _ (by decide) (by decide)⟩

/-! ### C9 -/

/-- The task row created by `import_tasks` for one exported object when
the store's counter stands at `tid`: the object's own id, created_at and
completed_at are stripped, so the row gets the fresh id, `created_at`
equal to the import time, and the creation defaults. -/
def importedTask (tid : Nat) (now : Int) (t : TaskWithTags) : Task :=
  { id := tid, title := t.title, description := t.description,
    category := t.category, priority := t.priority, status := "pending",
    deadline := t.deadline, created_at := now, completed_at := none,
    estimated_hours := t.estimated_hours, actual_hours := none }

/-- The task rows appended by importing a list of exported objects when
the counter stands at `base`. -/
def importedTasksFrom (base : Nat) (now : Int) :
    List TaskWithTags → List Task
  | [] => []
  | t :: ts => importedTask base now t :: importedTasksFrom (base + 1) now ts

/-- The tag rows appended by importing a list of exported objects when
the counter stands at `base`. -/
def importedTagsFrom (base : Nat) : List TaskWithTags → List Tag
  | [] => []
  | t :: ts =>
    t.tags.map (fun x => ⟨base, x.trim⟩) ++ importedTagsFrom (base + 1) ts

theorem import_tasks_spec (ts : List TaskWithTags) (s : Store) (now : Int) :
    (import_tasks s ts now).tasks =
      s.tasks ++ importedTasksFrom s.nextId now ts ∧
    (import_tasks s ts now).tags = s.tags ++ importedTagsFrom s.nextId ts ∧
    (import_tasks s ts now).nextId = s.nextId + ts.length ∧
    (import_tasks s ts now).history = s.history := by
  induction ts generalizing s with
  | nil => simp [import_tasks, importedTasksFrom, importedTagsFrom]
  | cons t ts ih =>
    have hstep : import_tasks s (t :: ts) now =
        import_tasks ((add_task s t.title t.description t.category
          t.priority t.deadline t.estimated_hours t.tags now).2) ts now :=
      rfl
    rw [hstep]
    obtain ⟨h1, h2, h3, h4⟩ := ih
      ((add_task s t.title t.description t.category t.priority t.deadline
        t.estimated_hours t.tags now).2)
    refine ⟨?_, ?_, ?_, ?_⟩
    · rw [h1]
      simp only [add_task, importedTasksFrom, List.append_assoc,
        List.singleton_append]
      rfl
    · rw [h2]
      simp only [add_task, importedTagsFrom, List.append_assoc]
    · rw [h3]
      simp only [add_task, List.length_cons]
      omega
    · rw [h4]
      rfl

theorem importedTask_mem (base : Nat) (now : Int) (ts : List TaskWithTags)
    (i : Nat) (hi : i < ts.length) :
    importedTask (base + i) now (ts.get ⟨i, hi⟩) ∈
      importedTasksFrom base now ts := by
  induction ts generalizing base i with
  | nil => exact absurd hi (by simp)
  | cons t ts ih =>
    cases i with
    | zero => simp [importedTasksFrom]
    | succ j =>
      have hj : j < ts.length := by simpa using hi
      have hmem := ih (base + 1) j hj
      simp only [importedTasksFrom, List.mem_cons]
      right
      have harith : base + (j + 1) = (base + 1) + j := by omega
      rw [harith]
      simpa using hmem

theorem importedTagsFrom_bounds (base : Nat) (ts : List TaskWithTags) :
    ∀ tg ∈ importedTagsFrom base ts,
      base ≤ tg.task_id ∧ tg.task_id < base + ts.length := by
  induction ts generalizing base with
  | nil => intro tg htg; simp [importedTagsFrom] at htg
  | cons t ts ih =>
    intro tg htg
    simp only [importedTagsFrom, List.mem_append, List.mem_map] at htg
    rcases htg with ⟨x, _, rfl⟩ | htg
    · exact ⟨le_refl base, by simp only [List.length_cons]; omega⟩
    · obtain ⟨hl, hr⟩ := ih (base + 1) tg htg
      exact ⟨by omega, by simp only [List.length_cons]; omega⟩

theorem importedTagsFrom_filter (base : Nat) (ts : List TaskWithTags)
    (i : Nat) (hi : i < ts.length) :
    (importedTagsFrom base ts).filter
        (fun tg => tg.task_id == base + i) =
      (ts.get ⟨i, hi⟩).tags.map (fun x => ⟨base + i, x.trim⟩) := by
  induction ts generalizing base i with
  | nil => exact absurd hi (by simp)
  | cons t ts ih =>
    simp only [importedTagsFrom, List.filter_append]
    cases i with
    | zero =>
      have h1 : (t.tags.map (fun x => (⟨base, x.trim⟩ : Tag))).filter
          (fun tg => tg.task_id == base + 0) =
          t.tags.map (fun x => ⟨base + 0, x.trim⟩) := by
        simp
      have h2 : (importedTagsFrom (base + 1) ts).filter
          (fun tg => tg.task_id == base + 0) = [] := by
        rw [List.filter_eq_nil_iff]
        intro tg htg
        obtain ⟨hl, _⟩ := importedTagsFrom_bounds (base + 1) ts tg htg
        simp only [beq_iff_eq]
        omega
      rw [h1, h2, List.append_nil]
      rfl
    | succ j =>
      have hj : j < ts.length := by simpa using hi
      have h1 : (t.tags.map (fun x => (⟨base, x.trim⟩ : Tag))).filter
          (fun tg => tg.task_id == base + (j + 1)) = [] := by
        rw [List.filter_eq_nil_iff]
        intro tg htg
        simp only [List.mem_map] at htg
        obtain ⟨x, _, rfl⟩ := htg
        simp only [beq_iff_eq]
        omega
      have harith : base + (j + 1) = (base + 1) + j := by omega
      rw [h1, List.nil_append, harith, ih (base + 1) j hj]
      rfl

/-- Every tag string of an exported object is the tag of some tag row of
the store. -/
theorem export_tags_sub {s : Store} {tw : TaskWithTags}
    (h : tw ∈ export_tasks s) : ∀ x ∈ tw.tags, ∃ tg ∈ s.tags, tg.tag = x := by
  intro x hx
  rcases mem_get_tasks.mp h with ⟨t, _, _, rfl⟩
  simp only [toTaskWithTags, taskTags, List.mem_map, List.mem_filter] at hx
  obtain ⟨tg, ⟨htg, _⟩, rfl⟩ := hx
  exact ⟨tg, htg, rfl⟩

/-- C9: exporting every task to JSON and importing the export back into
the store yields, for the i-th exported task, a new task row whose
title, description, category, priority, deadline, estimated_hours and
joined tags equal the exported ones, whose id is the fresh
`s.nextId + i` (distinct from every pre-existing task id), and whose
`created_at` is the import time with `completed_at` cleared.  The
hypotheses state the store's autoincrement invariants (every stored id
is below the counter) and that stored tag strings are trimmed, as
`add_task` guarantees. -/
theorem C9_roundtrip (s : Store) (now : Int)
    (hIds : ∀ t ∈ s.tasks, t.id < s.nextId)
    (hTagIds : ∀ tg ∈ s.tags, tg.task_id < s.nextId)
    (hTrim : ∀ tg ∈ s.tags, tg.tag.trim = tg.tag)
    (i : Nat) (hi : i < (export_tasks s).length) :
    ∃ t' ∈ (import_tasks s (export_tasks s) now).tasks,
      t'.id = s.nextId + i ∧
      (∀ t ∈ s.tasks, t.id ≠ t'.id) ∧
      t'.title = ((export_tasks s).get ⟨i, hi⟩).title ∧
      t'.description = ((export_tasks s).get ⟨i, hi⟩).description ∧
      t'.category = ((export_tasks s).get ⟨i, hi⟩).category ∧
      t'.priority = ((export_tasks s).get ⟨i, hi⟩).priority ∧
      t'.deadline = ((export_tasks s).get ⟨i, hi⟩).deadline ∧
      t'.estimated_hours = ((export_tasks s).get ⟨i, hi⟩).estimated_hours ∧
      t'.created_at = now ∧ t'.completed_at = none ∧
      taskTags (import_tasks s (export_tasks s) now) t'.id =
        ((export_tasks s).get ⟨i, hi⟩).tags := by
  obtain ⟨hTasks, hTags, _, _⟩ := import_tasks_spec (export_tasks s) s now
  refine ⟨importedTask (s.nextId + i) now ((export_tasks s).get ⟨i, hi⟩),
    ?_, rfl, ?_, rfl, rfl, rfl, rfl, rfl, rfl, rfl, rfl, ?_⟩
  · rw [hTasks]
    exact List.mem_append.mpr (Or.inr
      (importedTask_mem s.nextId now (export_tasks s) i hi))
  · intro t ht
    have := hIds t ht
    simp only [importedTask]
    omega
  · unfold taskTags
    rw [hTags, List.filter_append]
    have hold : s.tags.filter
        (fun tg => tg.task_id ==
          (importedTask (s.nextId + i) now
            ((export_tasks s).get ⟨i, hi⟩)).id) = [] := by
      rw [List.filter_eq_nil_iff]
      intro tg htg
      have := hTagIds tg htg
      simp only [importedTask, beq_iff_eq]
      omega
    rw [hold, List.nil_append]
    have hfilter := importedTagsFrom_filter s.nextId (export_tasks s) i hi
    have hid : (importedTask (s.nextId + i) now
        ((export_tasks s).get ⟨i, hi⟩)).id = s.nextId + i := rfl
    rw [hid, hfilter, List.map_map]
    have hsub := export_tags_sub
      (List.get_mem (export_tasks s) i hi)
    calc ((export_tasks s).get ⟨i, hi⟩).tags.map
          ((fun tg => tg.tag) ∘ (fun x => (⟨s.nextId + i, x.trim⟩ : Tag)))
        = ((export_tasks s).get ⟨i, hi⟩).tags.map (fun x => x) := by
          apply List.map_congr_left
          intro x hx
          obtain ⟨tg, htg, rfl⟩ := hsub x hx
          exact hTrim tg htg
      _ = ((export_tasks s).get ⟨i, hi⟩).tags := List.map_id' _

/-- A store with one task (id 1) for the round-trip witness. -/
def c9Store : Store :=
  (add_task Store.empty "a" "d" "g" 5 (some 100) (some 2) [] 0).2

theorem c9_len : 0 < (export_tasks c9Store).length := by decide

/-- C9, witness. -/
theorem C9_witness :
    ∃ t' ∈ (import_tasks c9Store (export_tasks c9Store) 500).tasks,
      t'.id = c9Store.nextId + 0 ∧
      (∀ t ∈ c9Store.tasks, t.id ≠ t'.id) ∧
      t'.title = ((export_tasks c9Store).get ⟨0, c9_len⟩).title ∧
      t'.description = ((export_tasks c9Store).get ⟨0, c9_len⟩).description ∧
      t'.category = ((export_tasks c9Store).get ⟨0, c9_len⟩).category ∧
      t'.priority = ((export_tasks c9Store).get ⟨0, c9_len⟩).priority ∧
      t'.deadline = ((export_tasks c9Store).get ⟨0, c9_len⟩).deadline ∧
      t'.estimated_hours =
        ((export_tasks c9Store).get ⟨0, c9_len⟩).estimated_hours ∧
      t'.created_at = 500 ∧ t'.completed_at = none ∧
      taskTags (import_tasks c9Store (export_tasks c9Store) 500) t'.id =
        ((export_tasks c9Store).get ⟨0, c9_len⟩).tags :=
  C9_roundtrip c9Store 500 (by decide) (by decide) (by decide) 0 c9_len

/-! ### C10 -/

/-- C10: no core operation validates or clamps a task's priority.  For
any integer `p` (including 0 or 99): `add_task` stores `p` unchanged in
the new row, `get_tasks` (no filter) returns a row with the new id and
priority `p` unchanged, and `update_task` with the priority field sets
every row with the id to priority exactly `p`, leaving other rows
untouched.  No error is possible: all three are total functions. -/
theorem C10_no_priority_validation (s : Store) (p : Int)
    (title desc cat : String) (dl : Option Int) (eh : Option ℚ)
    (tgs : List String) (now : Int) (tid : Nat) :
    (∃ t ∈ (add_task s title desc cat p dl eh tgs now).2.tasks,
        t.id = s.nextId ∧ t.priority = p) ∧
    (∃ tw ∈ get_tasks (add_task s title desc cat p dl eh tgs now).2
        none none, tw.id = s.nextId ∧ tw.priority = p) ∧
    (∀ t ∈ (update_task s tid { priority := some p }).tasks,
        t.id = tid → t.priority = p) ∧
    (∀ t ∈ (update_task s tid { priority := some p }).tasks,
        t.id ≠ tid → t ∈ s.tasks) := by
  have hmem : ({ id := s.nextId, title := title, description := desc,
                 category := cat, priority := p, status := "pending",
                 deadline := dl, created_at := now, completed_at := none,
                 estimated_hours := eh,
                 actual_hours := none } : Task) ∈
      (add_task s title desc cat p dl eh tgs now).2.tasks := by
    simp [add_task]
  refine ⟨?_, ?_, ?_, ?_⟩
  · exact ⟨_, hmem, rfl, rfl⟩
  · exact ⟨toTaskWithTags (add_task s title desc cat p dl eh tgs now).2 _,
      mem_get_tasks.mpr ⟨_, hmem, rfl, rfl⟩, rfl, rfl⟩
  · intro t ht htid
    simp only [update_task] at ht
    rw [if_pos (by rfl)] at ht
    simp only [List.mem_map] at ht
    obtain ⟨t0, ht0, rfl⟩ := ht
    by_cases h : (t0.id == tid) = true
    · simp [h, applyUpdate]
    · simp only [Bool.not_eq_true] at h
      rw [h] at htid ⊢
      simp only [Bool.false_eq_true, if_false] at htid ⊢
      exact absurd htid (by simpa using h)
  · intro t ht hne
    simp only [update_task] at ht
    rw [if_pos (by rfl)] at ht
    simp only [List.mem_map] at ht
    obtain ⟨t0, ht0, rfl⟩ := ht
    by_cases h : (t0.id == tid) = true
    · exfalso
      apply hne
      simp only [h, if_true]
      simpa [applyUpdate] using (beq_iff_eq.mp h)
    · simp only [Bool.not_eq_true] at h
      rw [h]
      simpa using ht0

/-- C10, witness: priority 99, far outside 1–5, is stored and updated
verbatim. -/
theorem C10_witness :
    (∃ t ∈ (add_task storeA "u" "" "g" 99 none (some 0) [] 0).2.tasks,
       t.id = storeA.nextId ∧ t.priority = 99) ∧
    (({ id := 1, title := "a", description := "", category := "g",
        priority := 99, status := "pending", deadline := some 100,
        created_at := 0, completed_at := none, estimated_hours := some 0,
        actual_hours := none } : Task).priority = 99) :=
  ⟨(C10_no_priority_validation storeA 99 "u" "" "g" none (some 0) [] 0 1).1,
   (C10_no_priority_validation storeB 99 "u" "" "g" none (some 0) [] 0
      1).2.2.1 _ (by decide) (by decide)⟩

end TaskSystem
